import Mathlib

/-!
Shallow embedding of the revision-guarded buffer-update core of the
editor (the `LapceUICommand` dispatch in `core/src/tab.rs`,
`LapceTabNew::event`).  Buffers, the open-file table and the diagnostics
table are modelled concretely; opaque payloads (style data, semantic
tokens, code-action responses, locations) are modelled as `Nat`
identifiers since the dispatcher only moves them around.  The Rust
`HashMap`s are modelled as association lists whose order stands for the
map's iteration order; `.unwrap()` on a failed lookup is modelled by the
handler returning `none` (a panic).  Side effects that leave the core
(update-channel sends, layout-invalidation notifications, navigation)
are collected in an effect list.
-/

namespace Lapce

/-- Severity of an LSP diagnostic (`lsp_types::DiagnosticSeverity`). -/
inductive DiagnosticSeverity where
  | error
  | warning
  | information
  | hint
  deriving DecidableEq, Repr

/-- An LSP diagnostic; only the severity matters to the dispatcher, the
message payload is opaque. -/
structure Diagnostic where
  severity : Option DiagnosticSeverity
  payload : Nat
  deriving DecidableEq, Repr

/-- `EditorDiagnostic` from `data.rs`: a diagnostic wrapped with an
optional buffer-offset range, built with `range = None` by the
`PublishDiagnostics` handler.  The field spelling follows the source. -/
structure EditorDiagnostic where
  range : Option (Nat × Nat)
  diagnositc : Diagnostic
  deriving DecidableEq, Repr

/-- A buffer entity (`BufferNew` in `buffer.rs`): identity, revision
counter, dirty/loaded flags, optional language tag, rope content,
styles cache and the offset-keyed code-action cache. -/
structure BufferNew where
  id : Nat
  path : String
  rev : Nat
  dirty : Bool
  loaded : Bool
  language : Option Nat
  rope : String
  styles : Nat
  code_actions : List (Nat × Nat)
  deriving DecidableEq, Repr

/-- `BufferUpdate`: the snapshot sent to the background recomputation
worker inside an `UpdateEvent::SemanticTokens`. -/
structure BufferUpdate where
  id : Nat
  path : String
  rope : String
  rev : Nat
  language : Nat
  highlights : Nat
  deriving DecidableEq, Repr

/-- Observable side effects of one command dispatch: an
`UpdateEvent::SemanticTokens` sent on the update channel, a
layout/paint-invalidation notification for a path
(`notify_update_text_layouts`), or a navigation (`jump_to_location`). -/
inductive Effect where
  | semanticTokens (update : BufferUpdate) (tokens : Nat)
  | notifyUpdateTextLayouts (path : String)
  | jumpToLocation (location : Nat)
  deriving DecidableEq, Repr

/-- The tab state mutated by the dispatcher: the open-file table
(path-keyed, list order = map iteration order), the diagnostics table,
the global severity counters and the active editor's cursor offset. -/
structure LapceTabData where
  open_files : List (String × BufferNew)
  diagnostics : List (String × List EditorDiagnostic)
  error_count : Nat
  warning_count : Nat
  cursor_offset : Nat
  deriving DecidableEq, Repr

/-- The commands of `LapceUICommand` whose handlers touch buffer or
diagnostic state. -/
inductive LapceUICommand where
  | LoadBuffer (path : String) (content : String)
  | PublishDiagnostics (uri : String) (diags : List Diagnostic)
  | BufferSave (path : String) (rev : Nat)
  | ReloadBuffer (id : Nat) (rev : Nat) (content : String)
  | UpdateSemanticTokens (id : Nat) (rev : Nat) (tokens : Nat)
  | UpdateStyle (id : Nat) (path : String) (rev : Nat) (highlights : Nat)
      (semantic_tokens : Bool)
  | UpdateCodeActions (path : String) (rev : Nat) (offset : Nat) (resp : Nat)
  | GotoDefinition (offset : Nat) (location : Nat)
  | GotoReference (offset : Nat) (location : Nat)
  deriving DecidableEq, Repr

/-- First-match association-list lookup (the `HashMap::get`). -/
def listLookup (k : String) : List (String × α) → Option α
  | [] => none
  | (k', v) :: rest => if k' = k then some v else listLookup k rest

/-- Insert-or-replace at a key (the `HashMap::insert`). -/
def listInsert (k : String) (v : α) : List (String × α) → List (String × α)
  | [] => [(k, v)]
  | (k', v') :: rest =>
      if k' = k then (k, v) :: rest else (k', v') :: listInsert k v rest

/-- Apply `f` to the value stored at key `k` (the `get_mut` + in-place
mutation pattern); leaves the list unchanged if the key is absent. -/
def updateAt (k : String) (f : BufferNew → BufferNew) :
    List (String × BufferNew) → List (String × BufferNew)
  | [] => []
  | (k', b) :: rest =>
      if k' = k then (k', f b) :: rest else (k', b) :: updateAt k f rest

/-- First buffer in iteration order with the given id (the successful
outcome of the `for … if &buffer.id == id` scan). -/
def findById (id : Nat) : List (String × BufferNew) → Option (String × BufferNew)
  | [] => none
  | (p, b) :: rest => if b.id = id then some (p, b) else findById id rest

/-- Lookup in the offset-keyed code-action cache. -/
def caLookup (k : Nat) : List (Nat × Nat) → Option Nat
  | [] => none
  | (k', v) :: rest => if k' = k then some v else caLookup k rest

/-- Insert-or-replace in the offset-keyed code-action cache. -/
def caInsert (k : Nat) (v : Nat) : List (Nat × Nat) → List (Nat × Nat)
  | [] => [(k, v)]
  | (k', v') :: rest =>
      if k' = k then (k, v) :: rest else (k', v') :: caInsert k v rest

/-- Modelled from the spec: `BufferNew::load_content` (in `buffer.rs`,
not under `src/`) replaces the rope content wholesale and sets
`loaded = true`; it does not by itself change the revision. -/
def load_content (content : String) (b : BufferNew) : BufferNew :=
  { b with rope := content, loaded := true }

/-- Modelled from the spec: `BufferNew::apply_edit` (in `buffer.rs`, not
under `src/`) mutates the rope at a byte range, increments the revision
and sets `dirty = true`. -/
def apply_edit (b : BufferNew) (start stop : Nat) (text : String) : BufferNew :=
  { b with
    rope := ⟨(b.rope.data.take start) ++ text.data ++ (b.rope.data.drop stop)⟩
    rev := b.rev + 1
    dirty := true }

/-- Modelled from the spec: `BufferNew::update_styles` (in `buffer.rs`,
not under `src/`) is a guarded write: if the tagged revision differs
from the buffer's current revision it is a no-op, otherwise it replaces
the highlight cache. -/
def update_styles (rev : Nat) (highlights : Nat) (_semantic_tokens : Bool)
    (b : BufferNew) : BufferNew :=
  if b.rev = rev then { b with styles := highlights } else b

/-- The error/warning rescan of the `PublishDiagnostics` handler: the
nested `for` loops over every entry of `data.diagnostics`, matching on
each diagnostic's optional severity. -/
def countDiagnostics (m : List (String × List EditorDiagnostic)) : Nat × Nat :=
  m.foldl
    (fun acc entry =>
      entry.2.foldl
        (fun acc d =>
          match d.diagnositc.severity with
          | some DiagnosticSeverity.error => (acc.1 + 1, acc.2)
          | some DiagnosticSeverity.warning => (acc.1, acc.2 + 1)
          | _ => acc)
        acc)
    (0, 0)

/-- The `ReloadBuffer` loop body: scan `open_files` in iteration order;
at the first buffer whose id matches, reload and bump the revision when
`buffer.rev + 1 == rev`, then `break` (the `break` is inside the
id-match branch, so non-matching buffers are skipped over). -/
def reloadLoop (id rev : Nat) (content : String) :
    List (String × BufferNew) → List (String × BufferNew) × List Effect
  | [] => ([], [])
  | (p, b) :: rest =>
      if b.id = id then
        if b.rev + 1 = rev then
          ((p, { load_content content b with rev := rev }) :: rest,
           [Effect.notifyUpdateTextLayouts b.path])
        else ((p, b) :: rest, [])
      else
        let r := reloadLoop id rev content rest
        ((p, b) :: r.1, r.2)

/-- The `UpdateSemanticTokens` loop body: the source's `for` loop has an
unconditional `break` at the end of its body, so only the first entry of
`open_files` in iteration order is ever examined. -/
def updateSemanticTokensLoop (id rev tokens : Nat) :
    List (String × BufferNew) → List Effect
  | [] => []
  | (_, b) :: _ =>
      if b.id = id then
        if b.rev = rev then
          match b.language with
          | some language =>
              [Effect.semanticTokens
                { id := b.id, path := b.path, rope := b.rope, rev := rev
                  language := language, highlights := b.styles } tokens]
          | none => []
        else []
      else []

/-- One step of the command-consuming loop: the `LapceUICommand` match
of `LapceTabNew::event` in `tab.rs`.  Returns the new state and the
emitted effects, or `none` when the handler panics (the `.unwrap()` on
a failed `open_files` lookup). -/
def event (s : LapceTabData) (c : LapceUICommand) :
    Option (LapceTabData × List Effect) :=
  match c with
  | LapceUICommand.LoadBuffer path content =>
      match listLookup path s.open_files with
      | none => none
      | some _ =>
          some ({ s with open_files := updateAt path (load_content content) s.open_files },
                [Effect.notifyUpdateTextLayouts path])
  | LapceUICommand.PublishDiagnostics uri diags =>
      let eds := diags.map (fun d => { range := none, diagnositc := d : EditorDiagnostic })
      let m := listInsert uri eds s.diagnostics
      let counts := countDiagnostics m
      some ({ s with
                diagnostics := m
                error_count := counts.1
                warning_count := counts.2 }, [])
  | LapceUICommand.BufferSave path rev =>
      match listLookup path s.open_files with
      | none => none
      | some _ =>
          let files :=
            updateAt path
              (fun b => if b.rev = rev then { b with dirty := false } else b)
              s.open_files
          some ({ s with open_files := files }, [])
  | LapceUICommand.ReloadBuffer id rev content =>
      let r := reloadLoop id rev content s.open_files
      some ({ s with open_files := r.1 }, r.2)
  | LapceUICommand.UpdateSemanticTokens id rev tokens =>
      some (s, updateSemanticTokensLoop id rev tokens s.open_files)
  | LapceUICommand.UpdateStyle _id path rev highlights semantic_tokens =>
      match listLookup path s.open_files with
      | none => none
      | some _ =>
          let files :=
            updateAt path (update_styles rev highlights semantic_tokens)
              s.open_files
          some ({ s with open_files := files },
                [Effect.notifyUpdateTextLayouts path])
  | LapceUICommand.UpdateCodeActions path rev offset resp =>
      match listLookup path s.open_files with
      | none => none
      | some _ =>
          let files :=
            updateAt path
              (fun b =>
                if b.rev = rev then
                  { b with code_actions := caInsert offset resp b.code_actions }
                else b)
              s.open_files
          some ({ s with open_files := files }, [])
  | LapceUICommand.GotoDefinition offset location =>
      if offset = s.cursor_offset then
        some (s, [Effect.jumpToLocation location])
      else some (s, [])
  | LapceUICommand.GotoReference offset location =>
      if offset = s.cursor_offset then
        some (s, [Effect.jumpToLocation location])
      else some (s, [])

/-- Run the consumer loop over a command sequence, propagating a panic. -/
def processAll (cmds : List LapceUICommand) (s : LapceTabData) :
    Option LapceTabData :=
  match cmds with
  | [] => some s
  | c :: rest =>
      match event s c with
      | none => none
      | some r => processAll rest r.1

/-- Run the consumer loop over a command sequence, accumulating all
emitted effects. -/
def processTrace (cmds : List LapceUICommand) (s : LapceTabData) :
    Option (LapceTabData × List Effect) :=
  match cmds with
  | [] => some (s, [])
  | c :: rest =>
      match event s c with
      | none => none
      | some r =>
          match processTrace rest r.1 with
          | none => none
          | some r' => some (r'.1, r.2 ++ r'.2)

/-- Number of layout/paint-invalidation notifications in an effect list. -/
def invalidationCount (effs : List Effect) : Nat :=
  effs.countP (fun e =>
    match e with
    | Effect.notifyUpdateTextLayouts _ => true
    | _ => false)

/-- Reference count of diagnostics at a given severity over the whole
diagnostics table, written independently of the handler's fold. -/
def totalSeverity (sev : DiagnosticSeverity)
    (m : List (String × List EditorDiagnostic)) : Nat :=
  (m.map (fun entry =>
    entry.2.countP (fun d => d.diagnositc.severity = some sev))).sum


/-! ### Association-list lemmas -/

theorem listLookup_updateAt_self (k : String) (f : BufferNew → BufferNew)
    (l : List (String × BufferNew)) :
    listLookup k (updateAt k f l) = (listLookup k l).map f := by
  induction l with
  | nil => rfl
  | cons hd tl ih =>
      obtain ⟨k', b⟩ := hd
      by_cases h : k' = k
      · simp [updateAt, listLookup, h]
      · simp [updateAt, listLookup, h, ih]

theorem listLookup_updateAt_ne (k q : String) (hq : q ≠ k)
    (f : BufferNew → BufferNew) (l : List (String × BufferNew)) :
    listLookup q (updateAt k f l) = listLookup q l := by
  induction l with
  | nil => rfl
  | cons hd tl ih =>
      obtain ⟨k', b⟩ := hd
      by_cases h : k' = k
      · subst h
        simp [updateAt, listLookup, Ne.symm hq, ih]
      · by_cases h2 : k' = q <;> simp [updateAt, listLookup, h, h2, hq, ih]

theorem updateAt_fix (k : String) (f : BufferNew → BufferNew) (b : BufferNew)
    (l : List (String × BufferNew)) (hl : listLookup k l = some b)
    (hf : f b = b) : updateAt k f l = l := by
  induction l with
  | nil => simp [listLookup] at hl
  | cons hd tl ih =>
      obtain ⟨k', b'⟩ := hd
      by_cases h : k' = k
      · simp [listLookup, h] at hl
        subst hl
        simp [updateAt, h, hf]
      · simp [listLookup, h] at hl
        simp [updateAt, h, ih hl]

theorem listLookup_listInsert_self {α : Type} (k : String) (v : α)
    (m : List (String × α)) :
    listLookup k (listInsert k v m) = some v := by
  induction m with
  | nil => simp [listInsert, listLookup]
  | cons hd tl ih =>
      obtain ⟨k', v'⟩ := hd
      by_cases h : k' = k
      · simp [listInsert, listLookup, h]
      · simp [listInsert, listLookup, h, ih]

theorem listLookup_listInsert_ne {α : Type} (k q : String) (hq : q ≠ k) (v : α)
    (m : List (String × α)) :
    listLookup q (listInsert k v m) = listLookup q m := by
  induction m with
  | nil => simp [listInsert, listLookup, Ne.symm hq]
  | cons hd tl ih =>
      obtain ⟨k', v'⟩ := hd
      by_cases h : k' = k
      · subst h
        simp [listInsert, listLookup, Ne.symm hq, ih]
      · by_cases h2 : k' = q <;> simp [listInsert, listLookup, h, h2, hq, ih]

theorem caLookup_caInsert_self (k v : Nat) (m : List (Nat × Nat)) :
    caLookup k (caInsert k v m) = some v := by
  induction m with
  | nil => simp [caInsert, caLookup]
  | cons hd tl ih =>
      obtain ⟨k', v'⟩ := hd
      by_cases h : k' = k
      · simp [caInsert, caLookup, h]
      · simp [caInsert, caLookup, h, ih]

theorem caLookup_caInsert_ne (k q v : Nat) (hq : q ≠ k) (m : List (Nat × Nat)) :
    caLookup q (caInsert k v m) = caLookup q m := by
  induction m with
  | nil => simp [caInsert, caLookup, Ne.symm hq]
  | cons hd tl ih =>
      obtain ⟨k', v'⟩ := hd
      by_cases h : k' = k
      · subst h
        simp [caInsert, caLookup, Ne.symm hq, ih]
      · by_cases h2 : k' = q <;> simp [caInsert, caLookup, h, h2, hq, ih]

/-! ### ReloadBuffer loop lemmas -/

theorem reloadLoop_notFound (id rev : Nat) (content : String)
    (l : List (String × BufferNew)) (h : findById id l = none) :
    reloadLoop id rev content l = (l, []) := by
  induction l with
  | nil => rfl
  | cons hd tl ih =>
      obtain ⟨p, b⟩ := hd
      by_cases hb : b.id = id
      · simp [findById, hb] at h
      · simp [findById, hb] at h
        simp [reloadLoop, hb, ih h]

theorem reloadLoop_stale (id rev : Nat) (content : String)
    (l : List (String × BufferNew)) (p : String) (b : BufferNew)
    (h : findById id l = some (p, b)) (hrev : b.rev + 1 ≠ rev) :
    reloadLoop id rev content l = (l, []) := by
  induction l with
  | nil => simp [findById] at h
  | cons hd tl ih =>
      obtain ⟨p0, b0⟩ := hd
      by_cases hb : b0.id = id
      · simp [findById, hb] at h
        obtain ⟨hp, hbe⟩ := h
        subst hp; subst hbe
        simp [reloadLoop, hb, hrev]
      · simp [findById, hb] at h
        simp [reloadLoop, hb, ih h]

theorem reloadLoop_found (id rev : Nat) (content : String)
    (l : List (String × BufferNew)) (p : String) (b : BufferNew)
    (h : findById id l = some (p, b)) (hrev : b.rev + 1 = rev) :
    findById id (reloadLoop id rev content l).1 =
      some (p, { load_content content b with rev := rev }) ∧
    (reloadLoop id rev content l).2 = [Effect.notifyUpdateTextLayouts b.path] ∧
    (∀ q, q ≠ p →
      listLookup q (reloadLoop id rev content l).1 = listLookup q l) := by
  induction l with
  | nil => simp [findById] at h
  | cons hd tl ih =>
      obtain ⟨p0, b0⟩ := hd
      by_cases hb : b0.id = id
      · simp [findById, hb] at h
        obtain ⟨hp, hbe⟩ := h
        subst hp; subst hbe
        refine ⟨?_, ?_, ?_⟩
        · simp [reloadLoop, hb, hrev, findById, load_content]
        · simp [reloadLoop, hb, hrev]
        · intro q hq
          simp [reloadLoop, hb, hrev, listLookup, Ne.symm hq]
      · simp [findById, hb] at h
        obtain ⟨h1, h2, h3⟩ := ih h
        refine ⟨?_, ?_, ?_⟩
        · simp [reloadLoop, hb, findById, h1]
        · simp [reloadLoop, hb, h2]
        · intro q hq
          by_cases hpq : p0 = q <;>
            simp [reloadLoop, hb, listLookup, hpq, h3 q hq]

/-! ### Revision evolution of one dispatch step -/

/-- Relation between a buffer slot before and after one dispatch step:
the slot stays empty, or the buffer's revision is unchanged or bumped by
exactly one. -/
def revStep : Option BufferNew → Option BufferNew → Prop
  | none, none => True
  | some b, some b2 => b2.rev = b.rev ∨ b2.rev = b.rev + 1
  | _, _ => False

theorem revStep_refl (o : Option BufferNew) : revStep o o := by
  cases o <;> simp [revStep]

theorem revStep_updateAt (k : String) (f : BufferNew → BufferNew)
    (hf : ∀ b, (f b).rev = b.rev) (l : List (String × BufferNew))
    (path : String) :
    revStep (listLookup path l) (listLookup path (updateAt k f l)) := by
  by_cases hp : path = k
  · subst hp
    rw [listLookup_updateAt_self]
    cases h : listLookup path l with
    | none => simp [revStep]
    | some b => simp [revStep, hf]
  · rw [listLookup_updateAt_ne k path hp]
    exact revStep_refl _

theorem revStep_reloadLoop (id rev : Nat) (content : String)
    (l : List (String × BufferNew)) (path : String) :
    revStep (listLookup path l) (listLookup path (reloadLoop id rev content l).1) := by
  induction l with
  | nil => exact revStep_refl _
  | cons hd tl ih =>
      obtain ⟨p, b⟩ := hd
      by_cases hb : b.id = id
      · by_cases hrev : b.rev + 1 = rev
        · by_cases hp : p = path
          · simp [reloadLoop, hb, hrev, listLookup, hp, revStep, load_content]
          · simp [reloadLoop, hb, hrev, listLookup, hp]
            exact revStep_refl _
        · simp [reloadLoop, hb, hrev]
          exact revStep_refl _
      · by_cases hp : p = path
        · simp [reloadLoop, hb, listLookup, hp]
          simp [revStep]
        · simp [reloadLoop, hb, listLookup, hp]
          exact ih

/-- Every dispatch step moves each buffer slot along `revStep`: the
revision is untouched or incremented by exactly one. -/
theorem event_revStep (s : LapceTabData) (c : LapceUICommand)
    (s2 : LapceTabData) (effs : List Effect)
    (h : event s c = some (s2, effs)) (path : String) :
    revStep (listLookup path s.open_files) (listLookup path s2.open_files) := by
  cases c with
  | LoadBuffer p content =>
      cases hl : listLookup p s.open_files with
      | none => simp [event, hl] at h
      | some b =>
          simp [event, hl] at h
          obtain ⟨h1, _⟩ := h
          rw [← h1]
          exact revStep_updateAt p (load_content content) (fun b => rfl)
            s.open_files path
  | PublishDiagnostics uri diags =>
      simp [event] at h
      obtain ⟨h1, _⟩ := h
      rw [← h1]
      exact revStep_refl _
  | BufferSave p rev =>
      cases hl : listLookup p s.open_files with
      | none => simp [event, hl] at h
      | some b =>
          simp [event, hl] at h
          obtain ⟨h1, _⟩ := h
          rw [← h1]
          refine revStep_updateAt p _ (fun b => ?_) _ path
          by_cases hb : b.rev = rev <;> simp [hb]
  | ReloadBuffer id rev content =>
      simp [event] at h
      obtain ⟨h1, _⟩ := h
      rw [← h1]
      exact revStep_reloadLoop id rev content _ path
  | UpdateSemanticTokens id rev tokens =>
      simp [event] at h
      obtain ⟨h1, _⟩ := h
      rw [← h1]
      exact revStep_refl _
  | UpdateStyle id p rev highlights st =>
      cases hl : listLookup p s.open_files with
      | none => simp [event, hl] at h
      | some b =>
          simp [event, hl] at h
          obtain ⟨h1, _⟩ := h
          rw [← h1]
          refine revStep_updateAt p _ (fun b => ?_) _ path
          by_cases hb : b.rev = rev <;> simp [update_styles, hb]
  | UpdateCodeActions p rev offset resp =>
      cases hl : listLookup p s.open_files with
      | none => simp [event, hl] at h
      | some b =>
          simp [event, hl] at h
          obtain ⟨h1, _⟩ := h
          rw [← h1]
          refine revStep_updateAt p _ (fun b => ?_) _ path
          by_cases hb : b.rev = rev <;> simp [hb]
  | GotoDefinition offset location =>
      by_cases ho : offset = s.cursor_offset <;> simp [event, ho] at h <;>
        obtain ⟨h1, _⟩ := h <;> rw [← h1] <;> exact revStep_refl _
  | GotoReference offset location =>
      by_cases ho : offset = s.cursor_offset <;> simp [event, ho] at h <;>
        obtain ⟨h1, _⟩ := h <;> rw [← h1] <;> exact revStep_refl _

/-- Over a whole successfully processed command sequence, a buffer's
revision never decreases. -/
theorem processAll_rev_le (cmds : List LapceUICommand) (s s2 : LapceTabData)
    (h : processAll cmds s = some s2) (path : String) (b b2 : BufferNew)
    (hb : listLookup path s.open_files = some b)
    (hb2 : listLookup path s2.open_files = some b2) : b.rev ≤ b2.rev := by
  induction cmds generalizing s b with
  | nil =>
      simp [processAll] at h
      subst h
      rw [hb] at hb2
      cases hb2
      exact Nat.le_refl _
  | cons c rest ih =>
      simp only [processAll] at h
      cases he : event s c with
      | none => rw [he] at h; exact absurd h (by simp)
      | some r =>
          rw [he] at h
          have hstep := event_revStep s c r.1 r.2 (by rw [he]) path
          rw [hb] at hstep
          cases hmid : listLookup path r.1.open_files with
          | none => rw [hmid] at hstep; exact absurd hstep (by simp [revStep])
          | some bmid =>
              rw [hmid] at hstep
              have hle : b.rev ≤ bmid.rev := by
                cases hstep with
                | inl hh => omega
                | inr hh => omega
              exact Nat.le_trans hle (ih r.1 h bmid hmid)

/-! ### Diagnostic counting bridge -/

theorem foldDiag_eq (ds : List EditorDiagnostic) (acc : Nat × Nat) :
    ds.foldl
      (fun acc d =>
        match d.diagnositc.severity with
        | some DiagnosticSeverity.error => (acc.1 + 1, acc.2)
        | some DiagnosticSeverity.warning => (acc.1, acc.2 + 1)
        | _ => acc)
      acc =
    (acc.1 + ds.countP (fun d => d.diagnositc.severity = some DiagnosticSeverity.error),
     acc.2 + ds.countP (fun d => d.diagnositc.severity = some DiagnosticSeverity.warning)) := by
  induction ds generalizing acc with
  | nil => simp
  | cons d tl ih =>
      rw [List.foldl_cons, ih]
      rcases hsev : d.diagnositc.severity with _ | sev
      · simp [List.countP_cons, hsev]
      · cases sev <;> simp [List.countP_cons, hsev] <;> omega

theorem countDiagnostics_eq (m : List (String × List EditorDiagnostic)) :
    countDiagnostics m =
      (totalSeverity DiagnosticSeverity.error m,
       totalSeverity DiagnosticSeverity.warning m) := by
  have general :
      ∀ (mm : List (String × List EditorDiagnostic)) (acc : Nat × Nat),
        mm.foldl
          (fun acc entry =>
            entry.2.foldl
              (fun acc d =>
                match d.diagnositc.severity with
                | some DiagnosticSeverity.error => (acc.1 + 1, acc.2)
                | some DiagnosticSeverity.warning => (acc.1, acc.2 + 1)
                | _ => acc)
              acc)
          acc =
        (acc.1 + totalSeverity DiagnosticSeverity.error mm,
         acc.2 + totalSeverity DiagnosticSeverity.warning mm) := by
    intro mm
    induction mm with
    | nil => intro acc; simp [totalSeverity]
    | cons e tl ih =>
        intro acc
        rw [List.foldl_cons, foldDiag_eq, ih]
        simp [totalSeverity]
        constructor <;> omega
  have h0 := general m (0, 0)
  simpa [countDiagnostics] using h0

/-! ### Concrete fixtures -/

/-- A buffer open at revision 1, first in iteration order. -/
def bufA : BufferNew :=
  { id := 1, path := "a", rev := 1, dirty := false, loaded := true
    language := some 5, rope := "txt", styles := 9, code_actions := [] }

/-- A buffer open at revision 0 with a language, second in iteration
order. -/
def bufB : BufferNew :=
  { id := 2, path := "b", rev := 0, dirty := false, loaded := true
    language := some 5, rope := "other", styles := 3, code_actions := [] }

/-- A tab with two open buffers. -/
def tabAB : LapceTabData :=
  { open_files := [("a", bufA), ("b", bufB)], diagnostics := []
    error_count := 0, warning_count := 0, cursor_offset := 0 }

/-- A tab with no open buffers. -/
def tabEmpty : LapceTabData :=
  { open_files := [], diagnostics := [], error_count := 0
    warning_count := 0, cursor_offset := 0 }

/-- A diagnostic with severity Error. -/
def diagErr : Diagnostic := { severity := some DiagnosticSeverity.error, payload := 0 }

/-- A diagnostic with severity Warning. -/
def diagWarn : Diagnostic := { severity := some DiagnosticSeverity.warning, payload := 0 }

/-- With an unknown id, the semantic-tokens loop emits nothing. -/
theorem updateSemanticTokensLoop_notFound (id rev tokens : Nat)
    (l : List (String × BufferNew)) (h : findById id l = none) :
    updateSemanticTokensLoop id rev tokens l = [] := by
  cases l with
  | nil => rfl
  | cons hd tl =>
      obtain ⟨p, b⟩ := hd
      by_cases hb : b.id = id
      · simp [findById, hb] at h
      · simp [updateSemanticTokensLoop, hb]

/-! ### Claims -/

/-- Claim C1, counterexample: the claim says a `BufferSave` whose path is
not open is dropped as a non-fatal lookup failure with state unchanged;
on the code the handler panics (unwrap of a failed `open_files` lookup),
modelled as `none`. -/
theorem C1_counterexample :
    event tabAB (LapceUICommand.BufferSave "zz" 0) = none ∧
    ∀ effs : List Effect,
      event tabAB (LapceUICommand.BufferSave "zz" 0) ≠ some (tabAB, effs) := by
  have h0 : event tabAB (LapceUICommand.BufferSave "zz" 0) = none := by decide
  refine ⟨h0, ?_⟩
  intro effs h
  rw [h0] at h
  exact Option.noConfusion h

/-- Claim C1, amended: a command targeting a path that is not open
(`LoadBuffer`, `BufferSave`, `UpdateStyle`, `UpdateCodeActions`) panics
on the failed lookup instead of being dropped; only the id-keyed
commands (`ReloadBuffer`, `UpdateSemanticTokens` with an unknown id) are
dropped silently with all state unchanged. -/
theorem C1_unknown_target (s : LapceTabData) (path content : String)
    (r id rev highlights offset resp tokens : Nat) (st : Bool)
    (h : listLookup path s.open_files = none)
    (hid : findById id s.open_files = none) :
    event s (LapceUICommand.LoadBuffer path content) = none ∧
    event s (LapceUICommand.BufferSave path r) = none ∧
    event s (LapceUICommand.UpdateStyle id path rev highlights st) = none ∧
    event s (LapceUICommand.UpdateCodeActions path rev offset resp) = none ∧
    event s (LapceUICommand.ReloadBuffer id rev content) = some (s, []) ∧
    event s (LapceUICommand.UpdateSemanticTokens id rev tokens) = some (s, []) := by
  refine ⟨by simp [event, h], by simp [event, h], by simp [event, h],
          by simp [event, h], ?_, ?_⟩
  · simp [event, reloadLoop_notFound id rev content s.open_files hid]
  · simp [event, updateSemanticTokensLoop_notFound id rev tokens s.open_files hid]

/-- Claim C1 witness: concrete instance of the amended theorem on an
empty tab. -/
theorem C1_witness :
    event tabEmpty (LapceUICommand.BufferSave "q" 0) = none ∧
    event tabEmpty (LapceUICommand.ReloadBuffer 3 1 "c") = some (tabEmpty, []) :=
  ⟨(C1_unknown_target tabEmpty "q" "c" 0 3 1 4 5 6 7 true rfl rfl).2.1,
   (C1_unknown_target tabEmpty "q" "c" 0 3 1 4 5 6 7 true rfl rfl).2.2.2.2.1⟩

/-- Claim C2: the `UpdateSemanticTokens` loop breaks unconditionally
after the first buffer in iteration order, so a matching buffer sitting
second (id 2, revision 0 = the tagged revision, language present) gets
no `UpdateEvent` forwarded — the dispatch returns no effects.  This
contradicts the claimed position-independence; the spec itself flags the
unconditional `break` as an early-exit bug, so the code is wrong. -/
theorem C2_break_skips_matching_buffer :
    tabAB.open_files = [("a", bufA), ("b", bufB)] ∧
    bufB.id = 2 ∧ bufB.rev = 0 ∧ bufB.language = some 5 ∧
    event tabAB (LapceUICommand.UpdateSemanticTokens 2 0 7) = some (tabAB, []) ∧
    event tabAB (LapceUICommand.UpdateSemanticTokens 1 1 7) =
      some (tabAB,
        [Effect.semanticTokens
          { id := 1, path := "a", rope := "txt", rev := 1, language := 5
            highlights := 9 } 7]) := by
  refine ⟨rfl, rfl, rfl, rfl, by decide, by decide⟩

/-- Claim C9: `GotoDefinition` and `GotoReference` navigate (emit a
`jumpToLocation` effect) exactly when the command's offset equals the
active editor's current cursor offset, and never change the tab state. -/
theorem C9_cursor_guarded_navigation (s : LapceTabData) (offset loc : Nat) :
    event s (LapceUICommand.GotoDefinition offset loc) =
      some (s, if offset = s.cursor_offset then [Effect.jumpToLocation loc] else []) ∧
    event s (LapceUICommand.GotoReference offset loc) =
      some (s, if offset = s.cursor_offset then [Effect.jumpToLocation loc] else []) := by
  constructor <;> by_cases h : offset = s.cursor_offset <;> simp [event, h]

/-- Claim C10: in the global rescan a diagnostic contributes to the
error counter exactly when its severity is present and `Error`, and to
the warning counter exactly when present and `Warning`; absent or other
severities (Information, Hint) contribute to neither. -/
theorem C10_severity_contribution :
    (∀ m, (countDiagnostics m).1 = totalSeverity DiagnosticSeverity.error m ∧
          (countDiagnostics m).2 = totalSeverity DiagnosticSeverity.warning m) ∧
    (∀ d : EditorDiagnostic,
      countDiagnostics [("p", [d])] =
        ((if d.diagnositc.severity = some DiagnosticSeverity.error then 1 else 0),
         (if d.diagnositc.severity = some DiagnosticSeverity.warning then 1 else 0))) := by
  constructor
  · intro m
    rw [countDiagnostics_eq]
    exact ⟨rfl, rfl⟩
  · intro d
    rw [countDiagnostics_eq]
    rcases h : d.diagnositc.severity with _ | sev
    · simp [totalSeverity, List.countP_cons, h]
    · cases sev <;> simp [totalSeverity, List.countP_cons, h]

/-- Claim C3: on a buffer at revision N (found by id in iteration
order), `ReloadBuffer(id, rev, content)` with `rev = N + 1` replaces the
content, sets the revision to `rev` and notifies a layout update; with
any other `rev` it is a silent no-op leaving the whole state unchanged. -/
theorem C3_reload_gap (s : LapceTabData) (id rev : Nat) (content : String)
    (p : String) (b : BufferNew) (h : findById id s.open_files = some (p, b)) :
    (rev = b.rev + 1 →
      ∃ s2, event s (LapceUICommand.ReloadBuffer id rev content) =
          some (s2, [Effect.notifyUpdateTextLayouts b.path]) ∧
        findById id s2.open_files =
          some (p, { b with rope := content, loaded := true, rev := rev }) ∧
        (∀ q, q ≠ p → listLookup q s2.open_files = listLookup q s.open_files) ∧
        s2.diagnostics = s.diagnostics ∧ s2.error_count = s.error_count ∧
        s2.warning_count = s.warning_count ∧
        s2.cursor_offset = s.cursor_offset) ∧
    (rev ≠ b.rev + 1 →
      event s (LapceUICommand.ReloadBuffer id rev content) = some (s, [])) := by
  constructor
  · intro hrev
    obtain ⟨h1, h2, h3⟩ :=
      reloadLoop_found id rev content s.open_files p b h (by omega)
    refine ⟨{ s with open_files := (reloadLoop id rev content s.open_files).1 },
            ?_, ?_, ?_, rfl, rfl, rfl, rfl⟩
    · simp [event, h2]
    · exact h1
    · exact h3
  · intro hrev
    have hs := reloadLoop_stale id rev content s.open_files p b h (by omega)
    simp [event, hs]

/-- Claim C3 witness: reload with the successor revision succeeds,
reload with a gap is a no-op, on the concrete two-buffer tab. -/
theorem C3_witness :
    (∃ s2, event tabAB (LapceUICommand.ReloadBuffer 1 2 "new") =
        some (s2, [Effect.notifyUpdateTextLayouts bufA.path]) ∧
      findById 1 s2.open_files =
        some ("a", { bufA with rope := "new", loaded := true, rev := 2 }) ∧
      (∀ q, q ≠ "a" → listLookup q s2.open_files = listLookup q tabAB.open_files) ∧
      s2.diagnostics = tabAB.diagnostics ∧ s2.error_count = tabAB.error_count ∧
      s2.warning_count = tabAB.warning_count ∧
      s2.cursor_offset = tabAB.cursor_offset) ∧
    event tabAB (LapceUICommand.ReloadBuffer 1 3 "new") = some (tabAB, []) :=
  ⟨(C3_reload_gap tabAB 1 2 "new" "a" bufA rfl).1 rfl,
   (C3_reload_gap tabAB 1 3 "new" "a" bufA rfl).2 (by decide)⟩

/-- Claim C4: `BufferSave(path, rev)` clears the dirty flag exactly when
`rev` equals the buffer's current revision, and `apply_edit` followed by
a save acknowledging the pre-edit revision leaves `dirty = true`. -/
theorem C4_save_dirty_guard :
    (∀ (s : LapceTabData) (path : String) (rev : Nat) (b : BufferNew),
      listLookup path s.open_files = some b →
      ∃ s2, event s (LapceUICommand.BufferSave path rev) = some (s2, []) ∧
        listLookup path s2.open_files =
          some (if b.rev = rev then { b with dirty := false } else b) ∧
        (∀ q, q ≠ path → listLookup q s2.open_files = listLookup q s.open_files)) ∧
    (∀ (b : BufferNew) (start stop : Nat) (text : String)
        (s2 : LapceTabData) (path : String),
      listLookup path s2.open_files = some (apply_edit b start stop text) →
      ∃ s3, event s2 (LapceUICommand.BufferSave path b.rev) = some (s3, []) ∧
        listLookup path s3.open_files = some (apply_edit b start stop text) ∧
        (apply_edit b start stop text).dirty = true) := by
  have main : ∀ (s : LapceTabData) (path : String) (rev : Nat) (b : BufferNew),
      listLookup path s.open_files = some b →
      ∃ s2, event s (LapceUICommand.BufferSave path rev) = some (s2, []) ∧
        listLookup path s2.open_files =
          some (if b.rev = rev then { b with dirty := false } else b) ∧
        (∀ q, q ≠ path → listLookup q s2.open_files = listLookup q s.open_files) := by
    intro s path rev b h
    refine ⟨{ s with
                open_files := updateAt path
                  (fun bb => if bb.rev = rev then { bb with dirty := false } else bb)
                  s.open_files },
            ?_, ?_, ?_⟩
    · simp [event, h]
    · show listLookup path (updateAt path _ s.open_files) = _
      rw [listLookup_updateAt_self, h]
      rfl
    · intro q hq
      exact listLookup_updateAt_ne path q hq _ _
  constructor
  · exact main
  · intro b start stop text s2 path h
    obtain ⟨s3, h1, h2, _⟩ := main s2 path b.rev (apply_edit b start stop text) h
    rw [if_neg (by simp [apply_edit])] at h2
    exact ⟨s3, h1, h2, rfl⟩

/-- Claim C4 witness: with the buffer at revision 1, a save tagged 1
clears dirty; after an edit (revision 2) a save tagged the pre-edit
revision 1 leaves dirty true. -/
theorem C4_witness :
    (∃ s2, event tabAB (LapceUICommand.BufferSave "a" 1) = some (s2, []) ∧
      listLookup "a" s2.open_files =
        some (if bufA.rev = 1 then { bufA with dirty := false } else bufA) ∧
      (∀ q, q ≠ "a" → listLookup q s2.open_files = listLookup q tabAB.open_files)) ∧
    (∃ s3, event
        { tabAB with open_files := [("a", apply_edit bufA 0 0 "x"), ("b", bufB)] }
        (LapceUICommand.BufferSave "a" bufA.rev) = some (s3, []) ∧
      listLookup "a" s3.open_files = some (apply_edit bufA 0 0 "x") ∧
      (apply_edit bufA 0 0 "x").dirty = true) :=
  ⟨C4_save_dirty_guard.1 tabAB "a" 1 bufA rfl,
   C4_save_dirty_guard.2 bufA 0 0 "x"
     { tabAB with open_files := [("a", apply_edit bufA 0 0 "x"), ("b", bufB)] }
     "a" rfl⟩

/-- Claim C5, counterexample: an `UpdateStyle` tagged revision 0 on a
buffer at revision 1 leaves the styles cache unchanged but still raises
one layout-invalidation signal (the handler notifies unconditionally),
so the end-to-end scenario (stale update then current update) raises two
signals, not one. -/
theorem C5_counterexample :
    bufA.rev = 1 ∧
    (event tabAB (LapceUICommand.UpdateStyle 1 "a" 0 42 true)).map
        (fun r => listLookup "a" r.1.open_files) = some (some bufA) ∧
    (event tabAB (LapceUICommand.UpdateStyle 1 "a" 0 42 true)).map
        (fun r => invalidationCount r.2) = some 1 ∧
    ¬ (event tabAB (LapceUICommand.UpdateStyle 1 "a" 0 42 true)).map
        (fun r => invalidationCount r.2) = some 0 ∧
    (processTrace [LapceUICommand.UpdateStyle 1 "a" 0 42 true,
                   LapceUICommand.UpdateStyle 1 "a" 1 42 true] tabAB).map
        (fun r => invalidationCount r.2) = some 2 ∧
    ¬ (processTrace [LapceUICommand.UpdateStyle 1 "a" 0 42 true,
                     LapceUICommand.UpdateStyle 1 "a" 1 42 true] tabAB).map
        (fun r => invalidationCount r.2) = some 1 := by decide

/-- Claim C5, amended: every `UpdateStyle` on an open buffer raises
exactly one invalidation signal, whether or not the tagged revision
matches; the styles cache itself is replaced only on a match. -/
theorem C5_updateStyle_unconditional (s : LapceTabData) (id : Nat)
    (path : String) (rev highlights : Nat) (st : Bool) (b : BufferNew)
    (h : listLookup path s.open_files = some b) :
    ∃ s2, event s (LapceUICommand.UpdateStyle id path rev highlights st) =
        some (s2, [Effect.notifyUpdateTextLayouts path]) ∧
      listLookup path s2.open_files =
        some (if b.rev = rev then { b with styles := highlights } else b) ∧
      (∀ q, q ≠ path → listLookup q s2.open_files = listLookup q s.open_files) := by
  refine ⟨{ s with
              open_files := updateAt path
                (update_styles rev highlights st) s.open_files },
          ?_, ?_, ?_⟩
  · simp [event, h]
  · show listLookup path (updateAt path _ s.open_files) = _
    rw [listLookup_updateAt_self, h]
    rfl
  · intro q hq
    exact listLookup_updateAt_ne path q hq _ _

/-- Claim C5 witness: the stale update (tagged 0, buffer at 1) still
emits the invalidation and keeps the cache. -/
theorem C5_witness :
    ∃ s2, event tabAB (LapceUICommand.UpdateStyle 1 "a" 0 42 true) =
        some (s2, [Effect.notifyUpdateTextLayouts "a"]) ∧
      listLookup "a" s2.open_files =
        some (if bufA.rev = 0 then { bufA with styles := 42 } else bufA) ∧
      (∀ q, q ≠ "a" → listLookup q s2.open_files = listLookup q tabAB.open_files) :=
  C5_updateStyle_unconditional tabAB 1 "a" 0 42 true bufA rfl

/-- Claim C6: `UpdateCodeActions(path, rev, offset, resp)` inserts the
response at key `offset` (replacing that key only) when `rev` matches
the buffer's revision, and leaves the whole state unchanged otherwise. -/
theorem C6_code_actions_guard (s : LapceTabData) (path : String)
    (rev offset resp : Nat) (b : BufferNew)
    (h : listLookup path s.open_files = some b) :
    (b.rev = rev →
      ∃ s2 b2,
        event s (LapceUICommand.UpdateCodeActions path rev offset resp) =
          some (s2, []) ∧
        listLookup path s2.open_files = some b2 ∧
        b2.code_actions = caInsert offset resp b.code_actions ∧
        caLookup offset b2.code_actions = some resp ∧
        (∀ o, o ≠ offset → caLookup o b2.code_actions = caLookup o b.code_actions) ∧
        (∀ q, q ≠ path → listLookup q s2.open_files = listLookup q s.open_files)) ∧
    (b.rev ≠ rev →
      event s (LapceUICommand.UpdateCodeActions path rev offset resp) =
        some (s, [])) := by
  constructor
  · intro hrev
    refine ⟨{ s with
                open_files := updateAt path
                  (fun bb =>
                    if bb.rev = rev then
                      { bb with code_actions := caInsert offset resp bb.code_actions }
                    else bb)
                  s.open_files },
            { b with code_actions := caInsert offset resp b.code_actions },
            ?_, ?_, rfl, ?_, ?_, ?_⟩
    · simp [event, h]
    · show listLookup path (updateAt path _ s.open_files) = _
      rw [listLookup_updateAt_self, h]
      simp [hrev]
    · exact caLookup_caInsert_self offset resp b.code_actions
    · intro o ho
      exact caLookup_caInsert_ne offset o resp ho b.code_actions
    · intro q hq
      exact listLookup_updateAt_ne path q hq _ _
  · intro hrev
    have hfix : updateAt path
        (fun bb =>
          if bb.rev = rev then
            { bb with code_actions := caInsert offset resp bb.code_actions }
          else bb)
        s.open_files = s.open_files :=
      updateAt_fix path _ b s.open_files h (by simp [hrev])
    simp [event, h, hfix]

/-- Claim C6 witness: a matching revision inserts at the offset; a stale
revision leaves the state untouched, on the concrete tab. -/
theorem C6_witness :
    (∃ s2 b2,
      event tabAB (LapceUICommand.UpdateCodeActions "a" 1 10 99) =
        some (s2, []) ∧
      listLookup "a" s2.open_files = some b2 ∧
      b2.code_actions = caInsert 10 99 bufA.code_actions ∧
      caLookup 10 b2.code_actions = some 99 ∧
      (∀ o, o ≠ 10 → caLookup o b2.code_actions = caLookup o bufA.code_actions) ∧
      (∀ q, q ≠ "a" → listLookup q s2.open_files = listLookup q tabAB.open_files)) ∧
    event tabAB (LapceUICommand.UpdateCodeActions "a" 0 10 99) =
      some (tabAB, []) :=
  ⟨(C6_code_actions_guard tabAB "a" 1 10 99 bufA rfl).1 rfl,
   (C6_code_actions_guard tabAB "a" 0 10 99 bufA rfl).2 (by decide)⟩

/-- The buffer `bufA` after a successful reload to revision 2. -/
def bufA2 : BufferNew :=
  { id := 1, path := "a", rev := 2, dirty := false, loaded := true
    language := some 5, rope := "new", styles := 9, code_actions := [] }

/-- The tab `tabAB` after reloading buffer 1 to revision 2. -/
def tabAB2 : LapceTabData :=
  { open_files := [("a", bufA2), ("b", bufB)], diagnostics := []
    error_count := 0, warning_count := 0, cursor_offset := 0 }

/-- Claim C7: each processed command leaves every buffer's revision
unchanged or incremented by exactly one, and over any successfully
processed command sequence a buffer's revision never decreases — so a
revision, once left behind, is never revisited. -/
theorem C7_revision_monotonic :
    (∀ (s : LapceTabData) (c : LapceUICommand) (s2 : LapceTabData)
        (effs : List Effect) (path : String) (b b2 : BufferNew),
      event s c = some (s2, effs) →
      listLookup path s.open_files = some b →
      listLookup path s2.open_files = some b2 →
      b2.rev = b.rev ∨ b2.rev = b.rev + 1) ∧
    (∀ (cmds : List LapceUICommand) (s s2 : LapceTabData) (path : String)
        (b b2 : BufferNew),
      processAll cmds s = some s2 →
      listLookup path s.open_files = some b →
      listLookup path s2.open_files = some b2 →
      b.rev ≤ b2.rev) := by
  constructor
  · intro s c s2 effs path b b2 h hb hb2
    have hstep := event_revStep s c s2 effs h path
    rw [hb, hb2] at hstep
    simpa [revStep] using hstep
  · intro cmds s s2 path b b2 h hb hb2
    exact processAll_rev_le cmds s s2 h path b b2 hb hb2

/-- Claim C7 witness: a reload from revision 1 to 2 performs a single
increment, and the processed sequence is monotone. -/
theorem C7_witness :
    (bufA2.rev = bufA.rev ∨ bufA2.rev = bufA.rev + 1) ∧ bufA.rev ≤ bufA2.rev :=
  ⟨C7_revision_monotonic.1 tabAB (LapceUICommand.ReloadBuffer 1 2 "new") tabAB2
      [Effect.notifyUpdateTextLayouts "a"] "a" bufA bufA2
      (by decide) rfl rfl,
   C7_revision_monotonic.2 [LapceUICommand.ReloadBuffer 1 2 "new"] tabAB tabAB2
      "a" bufA bufA2 (by decide) rfl rfl⟩

/-- Claim C8: `PublishDiagnostics(uri, diags)` replaces the target
path's diagnostic set wholesale (other paths untouched) and recomputes
the global error and warning counters as a full rescan of every entry;
the concrete aggregation scenario gives errors 3, warnings 1 and then,
after republishing an empty set for A, errors 1, warnings 0. -/
theorem C8_publish_diagnostics :
    (∀ (s : LapceTabData) (uri : String) (diags : List Diagnostic),
      ∃ s2, event s (LapceUICommand.PublishDiagnostics uri diags) =
          some (s2, []) ∧
        listLookup uri s2.diagnostics =
          some (diags.map (fun d => { range := none, diagnositc := d })) ∧
        (∀ q, q ≠ uri → listLookup q s2.diagnostics = listLookup q s.diagnostics) ∧
        s2.error_count = totalSeverity DiagnosticSeverity.error s2.diagnostics ∧
        s2.warning_count = totalSeverity DiagnosticSeverity.warning s2.diagnostics ∧
        s2.open_files = s.open_files) ∧
    ((processAll [LapceUICommand.PublishDiagnostics "A" [diagErr, diagErr, diagWarn],
                  LapceUICommand.PublishDiagnostics "B" [diagErr]] tabEmpty).map
        (fun s => (s.error_count, s.warning_count)) = some (3, 1)) ∧
    ((processAll [LapceUICommand.PublishDiagnostics "A" [diagErr, diagErr, diagWarn],
                  LapceUICommand.PublishDiagnostics "B" [diagErr],
                  LapceUICommand.PublishDiagnostics "A" []] tabEmpty).map
        (fun s => (s.error_count, s.warning_count)) = some (1, 0)) := by
  refine ⟨?_, by decide, by decide⟩
  intro s uri diags
  refine ⟨{ s with
              diagnostics := listInsert uri
                (diags.map (fun d => { range := none, diagnositc := d }))
                s.diagnostics
              error_count := (countDiagnostics (listInsert uri
                (diags.map (fun d => { range := none, diagnositc := d }))
                s.diagnostics)).1
              warning_count := (countDiagnostics (listInsert uri
                (diags.map (fun d => { range := none, diagnositc := d }))
                s.diagnostics)).2 },
          ?_, ?_, ?_, ?_, ?_, rfl⟩
  · simp [event]
  · exact listLookup_listInsert_self uri _ s.diagnostics
  · intro q hq
    exact listLookup_listInsert_ne uri q hq _ s.diagnostics
  · show (countDiagnostics _).1 = _
    rw [countDiagnostics_eq]
  · show (countDiagnostics _).2 = _
    rw [countDiagnostics_eq]

/-- Claim C8 witness: publishing one error for path A on the empty tab
leaves path B's (absent) diagnostics untouched. -/
theorem C8_witness :
    ∃ s2, event tabEmpty (LapceUICommand.PublishDiagnostics "A" [diagErr]) =
        some (s2, []) ∧
      listLookup "B" s2.diagnostics = listLookup "B" tabEmpty.diagnostics := by
  obtain ⟨s2, h1, _, h3, _⟩ :=
    C8_publish_diagnostics.1 tabEmpty "A" [diagErr]
  exact ⟨s2, h1, h3 "B" (by decide)⟩

end Lapce
